import Mathlib

/-!
# Smart-pointer benchmark: a shallow embedding of `smart_pointer_benchmark.cpp`

The program is one `main` that runs four timed loops over `MyObject`:
raw `new`/`delete`, `std::unique_ptr`, `std::shared_ptr` creation, and
`std::shared_ptr` copying.  The embedding is a state-passing translation:

* the heap is an association list from object identities to cells; a cell
  holds the `MyObject` and, for an object made by `std::make_shared`, the
  use count of its control block;
* every constructor call, destructor call, use-count change, store to
  `data` and clock reading is appended to an event trace, the counterpart
  of instrumenting the program;
* standard output is the string written so far;
* an operation on a dead object (a dangling dereference, a double delete)
  has no result: the operations return `Option`.

`long long` values are `Int`; the only narrowing in the program, the store
`data = i` into an `int`, goes through `toInt32`.  The loop counter never
exceeds `ITERATIONS`, so `++i` cannot overflow when the bound is a
`long long`.  Allocation failure (`std::bad_alloc`) is outside the model.
-/

namespace SmartPointerBenchmark

/-! ## Data model -/

/-- The class `MyObject`, whose one field is `int data`. -/
structure MyObject where
  data : Int
  deriving DecidableEq, Repr

/-- One heap allocation: the object, and the use count of the shared-ownership
control block when the object was made by `std::make_shared` (`none` for an
object made by `new` or `std::make_unique`). -/
structure Cell where
  obj : MyObject
  uses : Option Nat
  deriving DecidableEq, Repr

/-- What an instrumented run observes, in program order. -/
inductive Event where
  /-- The constructor `MyObject::MyObject()` ran for the object with this identity. -/
  | construct (a : Nat)
  /-- The destructor `MyObject::~MyObject()` ran for the object with this identity. -/
  | destroy (a : Nat)
  /-- A `shared_ptr` copy raised the use count of `a` to `n`. -/
  | retain (a : Nat) (n : Nat)
  /-- A `shared_ptr` destructor lowered the use count of `a` to `n`. -/
  | release (a : Nat) (n : Nat)
  /-- The store `p->data = v` on object `a`, `v` already narrowed to `int`. -/
  | store (a : Nat) (v : Int)
  /-- A call of `std::chrono::high_resolution_clock::now()`. -/
  | clock
  deriving DecidableEq, Repr

/-- Program state: standard output, number of clock readings taken, heap,
next fresh object identity, event trace. -/
structure State where
  out : String
  reads : Nat
  heap : List (Nat × Cell)
  next : Nat
  trace : List Event
  deriving DecidableEq

/-- State at entry to `main`. -/
def State.init : State :=
  { out := "", reads := 0, heap := [], next := 0, trace := [] }

/-! ## Heap primitives -/

/-- The cell of the first heap entry with identity `a`. -/
def lookup (a : Nat) : List (Nat × Cell) → Option Cell
  | [] => none
  | (b, c) :: h => if b = a then some c else lookup a h

/-- Replace the cell of the first heap entry with identity `a`. -/
def update (a : Nat) (c : Cell) : List (Nat × Cell) → List (Nat × Cell)
  | [] => []
  | (b, d) :: h => if b = a then (b, c) :: h else (b, d) :: update a c h

/-- Remove the first heap entry with identity `a`. -/
def remove (a : Nat) : List (Nat × Cell) → List (Nat × Cell)
  | [] => []
  | (b, d) :: h => if b = a then h else (b, d) :: remove a h

/-- Conversion of a `long long` to `int` (two's complement, 32 bits). -/
def toInt32 (v : Int) : Int :=
  (v + 2 ^ 31) % 2 ^ 32 - 2 ^ 31

/-! ## Operations of the program -/

/-- Output statement `std::cout << text`. -/
def print (text : String) (s : State) : State :=
  { s with out := s.out ++ text }

/-- Call of `std::chrono::high_resolution_clock::now()`: the next reading of the
clock, `clock k` being the `k`-th reading in ticks. -/
def now (clock : Nat → Int) (s : State) : State × Int :=
  ({ s with reads := s.reads + 1, trace := s.trace ++ [Event.clock] }, clock s.reads)

/-- Expression `new MyObject()`: allocate, then run the constructor `data(0)`. -/
def newObject (s : State) : State × Nat :=
  ({ s with
      heap := (s.next, { obj := { data := 0 }, uses := none }) :: s.heap
      next := s.next + 1
      trace := s.trace ++ [Event.construct s.next] },
   s.next)

/-- Statement `delete p`: run the destructor and free; no result on a dead object. -/
def deleteObject (a : Nat) (s : State) : Option State :=
  match lookup a s.heap with
  | none => none
  | some _ =>
    some { s with heap := remove a s.heap, trace := s.trace ++ [Event.destroy a] }

/-- Call of `std::make_unique<MyObject>()`. -/
def makeUnique (s : State) : State × Nat :=
  newObject s

/-- Destructor of a `std::unique_ptr<MyObject>` that owns `a`. -/
def dropUnique (a : Nat) (s : State) : Option State :=
  deleteObject a s

/-- Call of `std::make_shared<MyObject>()`: allocate object and control block,
construct with `data(0)`, use count 1. -/
def makeShared (s : State) : State × Nat :=
  ({ s with
      heap := (s.next, { obj := { data := 0 }, uses := some 1 }) :: s.heap
      next := s.next + 1
      trace := s.trace ++ [Event.construct s.next] },
   s.next)

/-- Copy construction of a `std::shared_ptr<MyObject>` from one that owns `a`:
the use count goes up by one. -/
def copyShared (a : Nat) (s : State) : Option State :=
  match lookup a s.heap with
  | some { obj := o, uses := some n } =>
    if n = 0 then none
    else
      some { s with
        heap := update a { obj := o, uses := some (n + 1) } s.heap
        trace := s.trace ++ [Event.retain a (n + 1)] }
  | _ => none

/-- Destructor of a `std::shared_ptr<MyObject>` that owns `a`: the use count
goes down by one, and the object is destroyed and freed when it reaches 0. -/
def dropShared (a : Nat) (s : State) : Option State :=
  match lookup a s.heap with
  | some { obj := o, uses := some n } =>
    if n = 0 then none
    else if n = 1 then
      some { s with
        heap := remove a s.heap
        trace := s.trace ++ [Event.release a 0, Event.destroy a] }
    else
      some { s with
        heap := update a { obj := o, uses := some (n - 1) } s.heap
        trace := s.trace ++ [Event.release a (n - 1)] }
  | _ => none

/-- Statement `p->data = i` with `i` a `long long`: narrow, then store; no result on a
dead object. -/
def storeData (a : Nat) (i : Int) (s : State) : Option State :=
  match lookup a s.heap with
  | none => none
  | some c =>
    some { s with
      heap := update a { c with obj := { data := toInt32 i } } s.heap
      trace := s.trace ++ [Event.store a (toInt32 i)] }

/-- Loop `for (long long i = start; i < N; ++i) body`. -/
def forLoop (N : Int) (body : Int → State → Option State) (i : Int) (s : State) :
    Option State :=
  if i < N then
    match body i s with
    | none => none
    | some s' => forLoop N body (i + 1) s'
  else some s
termination_by (N - i).toNat
decreasing_by omega

/-- The declared constant `const long long ITERATIONS = 100000000`. -/
def ITERATIONS : Int := 100000000

/-! ## The four loop bodies -/

/-- Body of the raw-pointer loop. -/
def rawBody (i : Int) (s : State) : Option State := do
  let (s, obj) := newObject s
  let s ← storeData obj i s
  deleteObject obj s

/-- Body of the `unique_ptr` loop; `obj` is destroyed at the closing brace. -/
def uniqueBody (i : Int) (s : State) : Option State := do
  let (s, obj) := makeUnique s
  let s ← storeData obj i s
  dropUnique obj s

/-- Body of the `shared_ptr` creation loop; `obj` is destroyed at the closing
brace. -/
def sharedCreateBody (i : Int) (s : State) : Option State := do
  let (s, obj) := makeShared s
  let s ← storeData obj i s
  dropShared obj s

/-- Body of the `shared_ptr` copy loop; `copy_ptr` is destroyed at the closing
brace. -/
def sharedCopyBody (base_shared_ptr : Nat) (i : Int) (s : State) : Option State := do
  let s ← copyShared base_shared_ptr s
  let copy_ptr := base_shared_ptr
  let s ← storeData copy_ptr i s
  dropShared copy_ptr s

/-! ## The four trials and `main`

`fmt` stands for the conversion of a tick count to `duration<double>` seconds
followed by its rendering with `operator<<`. -/

/-- Trial 1, raw pointers. -/
def trial1 (N : Int) (clock : Nat → Int) (fmt : Int → String) (s : State) :
    Option State := do
  let s := print "\n1. Raw Pointers (new/delete)...\n" s
  let (s, start_raw) := now clock s
  let s ← forLoop N rawBody 0 s
  let (s, end_raw) := now clock s
  let duration_raw := end_raw - start_raw
  pure (print ("   Total time: " ++ fmt duration_raw ++ " seconds\n") s)

/-- Trial 2, `std::unique_ptr`. -/
def trial2 (N : Int) (clock : Nat → Int) (fmt : Int → String) (s : State) :
    Option State := do
  let s := print "\n2. std::unique_ptr...\n" s
  let (s, start_unique) := now clock s
  let s ← forLoop N uniqueBody 0 s
  let (s, end_unique) := now clock s
  let duration_unique := end_unique - start_unique
  pure (print ("   Total time: " ++ fmt duration_unique ++ " seconds\n") s)

/-- Trial 3, `std::shared_ptr` creation and destruction. -/
def trial3 (N : Int) (clock : Nat → Int) (fmt : Int → String) (s : State) :
    Option State := do
  let s := print "\n3. std::shared_ptr (Creation/Destruction)...\n" s
  let (s, start_shared_create) := now clock s
  let s ← forLoop N sharedCreateBody 0 s
  let (s, end_shared_create) := now clock s
  let duration_shared_create := end_shared_create - start_shared_create
  pure (print ("   Total time: " ++ fmt duration_shared_create ++ " seconds\n") s)

/-- Trial 4 up to the start of its timed region: the section header and the
construction of `base_shared_ptr`. -/
def trial4Setup (s : State) : State × Nat :=
  let s := print "\n4. std::shared_ptr (Copying Overhead)...\n" s
  makeShared s

/-- The copy loop of trial 4. -/
def copyLoop (N : Int) (base_shared_ptr : Nat) (s : State) : Option State :=
  forLoop N (sharedCopyBody base_shared_ptr) 0 s

/-- Trial 4, `std::shared_ptr` copying; the result carries `base_shared_ptr`,
which lives until `main` returns. -/
def trial4 (N : Int) (clock : Nat → Int) (fmt : Int → String) (s : State) :
    Option (State × Nat) := do
  let (s, base_shared_ptr) := trial4Setup s
  let (s, start_shared_copy) := now clock s
  let s ← copyLoop N base_shared_ptr s
  let (s, end_shared_copy) := now clock s
  let duration_shared_copy := end_shared_copy - start_shared_copy
  pure (print ("   Total time: " ++ fmt duration_shared_copy ++ " seconds\n") s,
        base_shared_ptr)

/-- Function `int main()` with the constant `ITERATIONS` generalised to `N`: the final
state and the exit status. -/
def main (N : Int) (clock : Nat → Int) (fmt : Int → String) : Option (State × Int) := do
  let s := print ("Benchmarking Smart Pointer Overhead (Iterations: " ++ toString N ++ ")\n")
    State.init
  let s ← trial1 N clock fmt s
  let s ← trial2 N clock fmt s
  let s ← trial3 N clock fmt s
  let (s, base_shared_ptr) ← trial4 N clock fmt s
  -- `return 0`: `base_shared_ptr` goes out of scope
  let s ← dropShared base_shared_ptr s
  pure (s, 0)

/-! ## Observations on states and traces -/

/-- Number of constructor calls in a trace. -/
def constructions (t : List Event) : Nat :=
  t.countP fun e => match e with
    | Event.construct _ => true
    | _ => false

/-- Number of destructor calls in a trace. -/
def destructions (t : List Event) : Nat :=
  t.countP fun e => match e with
    | Event.destroy _ => true
    | _ => false

/-- Number of use-count increments in a trace. -/
def retains (t : List Event) : Nat :=
  t.countP fun e => match e with
    | Event.retain _ _ => true
    | _ => false

/-- Number of use-count decrements in a trace. -/
def releases (t : List Event) : Nat :=
  t.countP fun e => match e with
    | Event.release _ _ => true
    | _ => false

/-- The values stored to `data`, in order. -/
def stores (t : List Event) : List Int :=
  t.filterMap fun e => match e with
    | Event.store _ v => some v
    | _ => none

/-- Use count of the object `a`, when it is alive and shared. -/
def useCount (a : Nat) (s : State) : Option Nat :=
  (lookup a s.heap).bind Cell.uses

/-- The `data` field of the object `a`, when it is alive. -/
def dataOf (a : Nat) (s : State) : Option Int :=
  (lookup a s.heap).map fun c => c.obj.data

/-- Number of objects alive. -/
def live (s : State) : Nat :=
  s.heap.length

/-- The events appended to the trace between state `s` and a later state `s'`. -/
def eventsSince (s s' : State) : List Event :=
  s'.trace.drop s.trace.length

/-- Events of one iteration of the raw-pointer loop and of the `unique_ptr`
loop, on the fresh object `a` with loop counter `i`. -/
def ownedBlock (a : Nat) (i : Int) : List Event :=
  [Event.construct a, Event.store a (toInt32 i), Event.destroy a]

/-- Events of one iteration of the `shared_ptr` creation loop. -/
def sharedBlock (a : Nat) (i : Int) : List Event :=
  [Event.construct a, Event.store a (toInt32 i), Event.release a 0, Event.destroy a]

/-- Events of one iteration of the `shared_ptr` copy loop on the shared object
`b` whose use count is `n` outside the iteration. -/
def copyBlock (b n : Nat) (i : Int) : List Event :=
  [Event.retain b (n + 1), Event.store b (toInt32 i), Event.release b n]

/-- Events of `k` consecutive iterations that start at loop counter `i` and
fresh identity `a`, each iteration allocating one object. -/
def allocEvents (block : Nat → Int → List Event) : Nat → Int → Nat → List Event
  | 0, _, _ => []
  | k + 1, i, a => block a i ++ allocEvents block k (i + 1) (a + 1)

/-- Events of `k` consecutive iterations of the copy loop that start at loop
counter `i`. -/
def copyEvents (b n : Nat) : Nat → Int → List Event
  | 0, _ => []
  | k + 1, i => copyBlock b n i ++ copyEvents b n k (i + 1)

/-- Events of a timed region: a clock reading, the events of the loop, a clock
reading. -/
def timed (loop : List Event) : List Event :=
  Event.clock :: (loop ++ [Event.clock])

/-- The line that reports a trial's elapsed time. -/
def totalLine (fmt : Int → String) (elapsed : Int) : String :=
  "   Total time: " ++ fmt elapsed ++ " seconds\n"

/-- The event trace of a whole run with `n` iterations per loop. -/
def mainTrace (n : Nat) : List Event :=
  timed (allocEvents ownedBlock n 0 0) ++
    (timed (allocEvents ownedBlock n 0 n) ++
      (timed (allocEvents sharedBlock n 0 (n + n)) ++
        (Event.construct (n + n + n) :: timed (copyEvents (n + n + n) 1 n 0) ++
          [Event.release (n + n + n) 0, Event.destroy (n + n + n)])))

/-- The text a whole run writes to standard output. -/
def mainOutput (N : Int) (clock : Nat → Int) (fmt : Int → String) : String :=
  "Benchmarking Smart Pointer Overhead (Iterations: " ++ toString N ++ ")\n" ++
    "\n1. Raw Pointers (new/delete)...\n" ++ totalLine fmt (clock 1 - clock 0) ++
    "\n2. std::unique_ptr...\n" ++ totalLine fmt (clock 3 - clock 2) ++
    "\n3. std::shared_ptr (Creation/Destruction)...\n" ++ totalLine fmt (clock 5 - clock 4) ++
    "\n4. std::shared_ptr (Copying Overhead)...\n" ++ totalLine fmt (clock 7 - clock 6)

/-- The lines of a text: each newline ends a line, and characters after the
last newline form a last line. -/
def linesOf : List Char → List (List Char)
  | [] => []
  | c :: cs =>
    if c = '\n' then [] :: linesOf cs
    else
      match linesOf cs with
      | [] => [[c]]
      | l :: ls => (c :: l) :: ls

/-- The lines of the text written to standard output. -/
def outputLines (text : String) : List String :=
  (linesOf text.toList).map String.mk

/-- Whether a line starts with `   Total time: `. -/
def isTotalTimeLine (line : String) : Bool :=
  "   Total time: ".toList.isPrefixOf line.toList

/-- The thirteen lines of the expected output: the header line with the
iteration count, then for each trial an empty line, the numbered section header
and the elapsed-time line. -/
def expectedLines (N : Int) (clock : Nat → Int) (fmt : Int → String) : List String :=
  ["Benchmarking Smart Pointer Overhead (Iterations: " ++ toString N ++ ")",
   "",
   "1. Raw Pointers (new/delete)...",
   "   Total time: " ++ fmt (clock 1 - clock 0) ++ " seconds",
   "",
   "2. std::unique_ptr...",
   "   Total time: " ++ fmt (clock 3 - clock 2) ++ " seconds",
   "",
   "3. std::shared_ptr (Creation/Destruction)...",
   "   Total time: " ++ fmt (clock 5 - clock 4) ++ " seconds",
   "",
   "4. std::shared_ptr (Copying Overhead)...",
   "   Total time: " ++ fmt (clock 7 - clock 6) ++ " seconds"]

/-- The loop counters `i, i + 1, ..., i + k - 1`, each narrowed to `int`. -/
def narrowedFrom (i : Int) (k : Nat) : List Int :=
  (List.range k).map fun (j : Nat) => toInt32 (i + j)

/-- The value of `data` in the shared object after the copy loop with
bound `N`, the value before the loop being `d`. -/
def dataAfter (N : Int) (d : Int) : Int :=
  if N.toNat = 0 then d else toInt32 (N - 1)

/-- At every point of the trace, the destructor calls so far are at most the
constructor calls so far, and at most one constructed object is not yet
destroyed. -/
def LiveBounded (d : List Event) : Prop :=
  ∀ p, p <+: d → destructions p ≤ constructions p ∧ constructions p ≤ destructions p + 1

/-! ## Heap lemmas -/

theorem lookup_update_same (a : Nat) (c : Cell) (h : List (Nat × Cell)) (d : Cell)
    (hd : lookup a h = some d) : lookup a (update a c h) = some c := by
  induction h with
  | nil => simp [lookup] at hd
  | cons x h ih =>
    obtain ⟨b, e⟩ := x
    by_cases hb : b = a
    · simp [lookup, update, hb]
    · simp [lookup, hb] at hd
      simp [lookup, update, hb, ih hd]

theorem update_update_same (a : Nat) (c d : Cell) (h : List (Nat × Cell)) :
    update a c (update a d h) = update a c h := by
  induction h with
  | nil => simp [update]
  | cons x h ih =>
    obtain ⟨b, e⟩ := x
    by_cases hb : b = a
    · simp [update, hb]
    · simp [update, hb, ih]

theorem length_update (a : Nat) (c : Cell) (h : List (Nat × Cell)) :
    (update a c h).length = h.length := by
  induction h with
  | nil => simp [update]
  | cons x h ih =>
    obtain ⟨b, e⟩ := x
    by_cases hb : b = a
    · simp [update, hb]
    · simp [update, hb, ih]

theorem update_self (a : Nat) (c : Cell) (h : List (Nat × Cell))
    (hc : lookup a h = some c) : update a c h = h := by
  induction h with
  | nil => simp [update]
  | cons x h ih =>
    obtain ⟨b, e⟩ := x
    by_cases hb : b = a
    · simp [lookup, hb] at hc
      simp [update, hb, hc]
    · simp [lookup, hb] at hc
      simp [update, hb, ih hc]

/-! ## The loop bodies, computed -/

theorem rawBody_eq (i : Int) (s : State) :
    rawBody i s =
      some { s with next := s.next + 1, trace := s.trace ++ ownedBlock s.next i } := by
  simp [rawBody, newObject, storeData, deleteObject, lookup, update, remove, ownedBlock]

theorem uniqueBody_eq (i : Int) (s : State) :
    uniqueBody i s =
      some { s with next := s.next + 1, trace := s.trace ++ ownedBlock s.next i } := by
  simp [uniqueBody, makeUnique, dropUnique, newObject, storeData, deleteObject, lookup,
    update, remove, ownedBlock]

theorem sharedCreateBody_eq (i : Int) (s : State) :
    sharedCreateBody i s =
      some { s with next := s.next + 1, trace := s.trace ++ sharedBlock s.next i } := by
  simp [sharedCreateBody, makeShared, storeData, dropShared, lookup, update, remove,
    sharedBlock]

theorem copyShared_eq (b n : Nat) (o : MyObject) (s : State) (hn : 0 < n)
    (hb : lookup b s.heap = some { obj := o, uses := some n }) :
    copyShared b s =
      some { s with
        heap := update b { obj := o, uses := some (n + 1) } s.heap
        trace := s.trace ++ [Event.retain b (n + 1)] } := by
  have hn0 : n ≠ 0 := by omega
  simp [copyShared, hb, hn0]

theorem sharedCopyBody_eq (b n : Nat) (o : MyObject) (i : Int) (s : State) (hn : 0 < n)
    (hb : lookup b s.heap = some { obj := o, uses := some n }) :
    sharedCopyBody b i s =
      some { s with
        heap := update b { obj := { data := toInt32 i }, uses := some n } s.heap
        trace := s.trace ++ copyBlock b n i } := by
  have h1 := lookup_update_same b { obj := o, uses := some (n + 1) } s.heap _ hb
  have h2 := lookup_update_same b
    { obj := { data := toInt32 i }, uses := some (n + 1) } s.heap _ hb
  have hn0 : n ≠ 0 := by omega
  simp [sharedCopyBody, copyShared, storeData, dropShared, hb, h1, h2, hn0,
    update_update_same, copyBlock]

/-! ## The loops, computed -/

theorem forLoop_done (N : Int) (body : Int → State → Option State) (i : Int) (s : State)
    (h : ¬ i < N) : forLoop N body i s = some s := by
  rw [forLoop, if_neg h]

theorem forLoop_step (N : Int) (body : Int → State → Option State) (i : Int) (s : State)
    (h : i < N) : forLoop N body i s = (body i s).bind (forLoop N body (i + 1)) := by
  rw [forLoop, if_pos h]
  cases body i s <;> rfl

/-- The loop runs its body for the counters `i, i + 1, ..., N - 1`, in this
order, and for no other. -/
theorem forLoop_eq_foldlM (N : Int) (body : Int → State → Option State) :
    ∀ (k : Nat) (i : Int) (s : State), (N - i).toNat = k →
      forLoop N body i s =
        List.foldlM (fun s (j : Nat) => body (i + j) s) s (List.range k) := by
  intro k
  induction k with
  | zero =>
    intro i s hk
    have : ¬ i < N := by omega
    simp [forLoop_done N body i s this]
  | succ k ih =>
    intro i s hk
    have hlt : i < N := by omega
    rw [forLoop_step N body i s hlt, List.range_succ_eq_map, List.foldlM_cons]
    simp only [Nat.cast_zero, add_zero]
    cases hbody : body i s with
    | none => rfl
    | some s' =>
      simp only [bind, Option.bind]
      rw [ih (i + 1) s' (by omega), List.foldlM_map]
      congr 1
      funext s j
      simp only [Nat.succ_eq_add_one, Nat.cast_add, Nat.cast_one]
      congr 1
      ring

theorem forLoop_alloc (N : Int) (body : Int → State → Option State)
    (block : Nat → Int → List Event)
    (hb : ∀ i s, body i s =
      some { s with next := s.next + 1, trace := s.trace ++ block s.next i }) :
    ∀ (k : Nat) (i : Int) (s : State), (N - i).toNat = k →
      forLoop N body i s =
        some { s with
          next := s.next + k
          trace := s.trace ++ allocEvents block k i s.next } := by
  intro k
  induction k with
  | zero =>
    intro i s hk
    have : ¬ i < N := by omega
    simp [forLoop_done N body i s this, allocEvents]
  | succ k ih =>
    intro i s hk
    have hlt : i < N := by omega
    rw [forLoop_step N body i s hlt, hb i s]
    simp only [Option.bind]
    rw [ih (i + 1) _ (by omega)]
    simp [allocEvents, Nat.add_assoc, Nat.add_comm 1 k]

theorem forLoop_copy (N : Int) (b n : Nat) (hn : 0 < n) :
    ∀ (k : Nat) (i : Int) (s : State) (o : MyObject), (N - i).toNat = k →
      lookup b s.heap = some { obj := o, uses := some n } →
      forLoop N (sharedCopyBody b) i s =
        some { s with
          heap := if k = 0 then s.heap
            else update b { obj := { data := toInt32 (N - 1) }, uses := some n } s.heap
          trace := s.trace ++ copyEvents b n k i } := by
  intro k
  induction k with
  | zero =>
    intro i s o hk _
    have : ¬ i < N := by omega
    simp [forLoop_done N _ i s this, copyEvents]
  | succ k ih =>
    intro i s o hk hlook
    have hlt : i < N := by omega
    rw [forLoop_step N _ i s hlt, sharedCopyBody_eq b n o i s hn hlook]
    simp only [Option.bind]
    rw [ih (i + 1) _ { data := toInt32 i } (by omega)
      (lookup_update_same b _ s.heap _ hlook)]
    by_cases hk0 : k = 0
    · have hi : i = N - 1 := by omega
      simp [hk0, copyEvents, hi]
    · simp [hk0, copyEvents, update_update_same]

/-! ## The trials and `main`, computed -/

theorem trial1_eq (N : Int) (clock : Nat → Int) (fmt : Int → String) (s : State) :
    trial1 N clock fmt s =
      some { s with
        out := s.out ++ "\n1. Raw Pointers (new/delete)...\n" ++
          totalLine fmt (clock (s.reads + 1) - clock s.reads)
        reads := s.reads + 2
        next := s.next + N.toNat
        trace := s.trace ++ timed (allocEvents ownedBlock N.toNat 0 s.next) } := by
  simp only [trial1, now, print, bind, Option.bind, pure]
  rw [forLoop_alloc N rawBody ownedBlock rawBody_eq N.toNat 0 _ (by simp)]
  simp [timed, totalLine]

theorem trial2_eq (N : Int) (clock : Nat → Int) (fmt : Int → String) (s : State) :
    trial2 N clock fmt s =
      some { s with
        out := s.out ++ "\n2. std::unique_ptr...\n" ++
          totalLine fmt (clock (s.reads + 1) - clock s.reads)
        reads := s.reads + 2
        next := s.next + N.toNat
        trace := s.trace ++ timed (allocEvents ownedBlock N.toNat 0 s.next) } := by
  simp only [trial2, now, print, bind, Option.bind, pure]
  rw [forLoop_alloc N uniqueBody ownedBlock uniqueBody_eq N.toNat 0 _ (by simp)]
  simp [timed, totalLine]

theorem trial3_eq (N : Int) (clock : Nat → Int) (fmt : Int → String) (s : State) :
    trial3 N clock fmt s =
      some { s with
        out := s.out ++ "\n3. std::shared_ptr (Creation/Destruction)...\n" ++
          totalLine fmt (clock (s.reads + 1) - clock s.reads)
        reads := s.reads + 2
        next := s.next + N.toNat
        trace := s.trace ++ timed (allocEvents sharedBlock N.toNat 0 s.next) } := by
  simp only [trial3, now, print, bind, Option.bind, pure]
  rw [forLoop_alloc N sharedCreateBody sharedBlock sharedCreateBody_eq N.toNat 0 _ (by simp)]
  simp [timed, totalLine]

theorem copyLoop_eq (N : Int) (b n : Nat) (o : MyObject) (s : State) (hn : 0 < n)
    (hb : lookup b s.heap = some { obj := o, uses := some n }) :
    copyLoop N b s =
      some { s with
        heap := update b { obj := { data := dataAfter N o.data }, uses := some n } s.heap
        trace := s.trace ++ copyEvents b n N.toNat 0 } := by
  unfold copyLoop
  rw [forLoop_copy N b n hn N.toNat 0 s o (by simp) hb]
  by_cases h : N.toNat = 0
  · simp [dataAfter, h, update_self b _ s.heap hb]
  · simp [dataAfter, h]

theorem trial4_eq (N : Int) (clock : Nat → Int) (fmt : Int → String) (s : State) :
    trial4 N clock fmt s =
      some ({ s with
        out := s.out ++ "\n4. std::shared_ptr (Copying Overhead)...\n" ++
          totalLine fmt (clock (s.reads + 1) - clock s.reads)
        reads := s.reads + 2
        heap := (s.next, { obj := { data := dataAfter N 0 }, uses := some 1 }) :: s.heap
        next := s.next + 1
        trace := s.trace ++
          Event.construct s.next :: timed (copyEvents s.next 1 N.toNat 0) }, s.next) := by
  simp only [trial4, trial4Setup, makeShared, now, print, bind, Option.bind, pure]
  rw [copyLoop_eq N s.next 1 { data := 0 } _ (by decide) (by simp [lookup])]
  simp [timed, totalLine, update]

theorem dropShared_last (b : Nat) (o : MyObject) (s : State)
    (hb : lookup b s.heap = some { obj := o, uses := some 1 }) :
    dropShared b s =
      some { s with
        heap := remove b s.heap
        trace := s.trace ++ [Event.release b 0, Event.destroy b] } := by
  simp [dropShared, hb]

theorem main_eq (N : Int) (clock : Nat → Int) (fmt : Int → String) :
    main N clock fmt =
      some ({ out := mainOutput N clock fmt
              reads := 8
              heap := []
              next := N.toNat + N.toNat + N.toNat + 1
              trace := mainTrace N.toNat }, 0) := by
  simp only [main, trial1_eq, trial2_eq, trial3_eq, trial4_eq, bind, Option.bind, pure,
    print, State.init]
  rw [dropShared_last _ { data := dataAfter N 0 } _ (by simp [lookup])]
  simp [remove, mainTrace, mainOutput, String.append_assoc]

/-! ## Counting events -/

theorem eventsSince_append (s s' : State) (d : List Event) (h : s'.trace = s.trace ++ d) :
    eventsSince s s' = d := by
  simp [eventsSince, h]

theorem constructions_append (t u : List Event) :
    constructions (t ++ u) = constructions t + constructions u := by
  simp [constructions]

theorem destructions_append (t u : List Event) :
    destructions (t ++ u) = destructions t + destructions u := by
  simp [destructions]

theorem retains_append (t u : List Event) :
    retains (t ++ u) = retains t + retains u := by
  simp [retains]

theorem releases_append (t u : List Event) :
    releases (t ++ u) = releases t + releases u := by
  simp [releases]

theorem stores_append (t u : List Event) : stores (t ++ u) = stores t ++ stores u := by
  simp [stores]

theorem narrowedFrom_succ (i : Int) (k : Nat) :
    narrowedFrom i (k + 1) = toInt32 i :: narrowedFrom (i + 1) k := by
  simp only [narrowedFrom, List.range_succ_eq_map, List.map_cons, List.map_map]
  simp only [Nat.cast_zero, add_zero, List.cons.injEq, true_and]
  apply List.map_congr_left
  intro j _
  simp only [Function.comp, Nat.succ_eq_add_one, Nat.cast_add, Nat.cast_one]
  congr 1
  ring

theorem allocEvents_owned_counts (k : Nat) : ∀ (i : Int) (a : Nat),
    constructions (allocEvents ownedBlock k i a) = k ∧
    destructions (allocEvents ownedBlock k i a) = k ∧
    retains (allocEvents ownedBlock k i a) = 0 ∧
    releases (allocEvents ownedBlock k i a) = 0 ∧
    stores (allocEvents ownedBlock k i a) = narrowedFrom i k := by
  induction k with
  | zero => intro i a; simp [allocEvents, constructions, destructions, retains, releases,
      stores, narrowedFrom]
  | succ k ih =>
    intro i a
    obtain ⟨h1, h2, h3, h4, h5⟩ := ih (i + 1) (a + 1)
    simp only [allocEvents, constructions_append, destructions_append, retains_append,
      releases_append, stores_append, h1, h2, h3, h4, h5, narrowedFrom_succ]
    simp [ownedBlock, constructions, destructions, retains, releases, stores, Nat.add_comm]

theorem allocEvents_shared_counts (k : Nat) : ∀ (i : Int) (a : Nat),
    constructions (allocEvents sharedBlock k i a) = k ∧
    destructions (allocEvents sharedBlock k i a) = k ∧
    retains (allocEvents sharedBlock k i a) = 0 ∧
    releases (allocEvents sharedBlock k i a) = k ∧
    stores (allocEvents sharedBlock k i a) = narrowedFrom i k := by
  induction k with
  | zero => intro i a; simp [allocEvents, constructions, destructions, retains, releases,
      stores, narrowedFrom]
  | succ k ih =>
    intro i a
    obtain ⟨h1, h2, h3, h4, h5⟩ := ih (i + 1) (a + 1)
    simp only [allocEvents, constructions_append, destructions_append, retains_append,
      releases_append, stores_append, h1, h2, h3, h4, h5, narrowedFrom_succ]
    simp [sharedBlock, constructions, destructions, retains, releases, stores, Nat.add_comm]

theorem copyEvents_counts (b n : Nat) (k : Nat) : ∀ (i : Int),
    constructions (copyEvents b n k i) = 0 ∧
    destructions (copyEvents b n k i) = 0 ∧
    retains (copyEvents b n k i) = k ∧
    releases (copyEvents b n k i) = k ∧
    stores (copyEvents b n k i) = narrowedFrom i k := by
  induction k with
  | zero => intro i; simp [copyEvents, constructions, destructions, retains, releases,
      stores, narrowedFrom]
  | succ k ih =>
    intro i
    obtain ⟨h1, h2, h3, h4, h5⟩ := ih (i + 1)
    simp only [copyEvents, constructions_append, destructions_append, retains_append,
      releases_append, stores_append, h1, h2, h3, h4, h5, narrowedFrom_succ]
    simp [copyBlock, constructions, destructions, retains, releases, stores, Nat.add_comm]

theorem timed_counts (loop : List Event) :
    constructions (timed loop) = constructions loop ∧
    destructions (timed loop) = destructions loop ∧
    retains (timed loop) = retains loop ∧
    releases (timed loop) = releases loop ∧
    stores (timed loop) = stores loop := by
  simp [timed, constructions, destructions, retains, releases, stores]

theorem narrowedFrom_length (i : Int) (k : Nat) : (narrowedFrom i k).length = k := by
  simp [narrowedFrom]

theorem mainTrace_counts (n : Nat) :
    constructions (mainTrace n) = 3 * n + 1 ∧
    destructions (mainTrace n) = 3 * n + 1 ∧
    (stores (mainTrace n)).length = 4 * n := by
  obtain ⟨a1, a2, _, _, a5⟩ := allocEvents_owned_counts n 0 0
  obtain ⟨b1, b2, _, _, b5⟩ := allocEvents_owned_counts n 0 n
  obtain ⟨c1, c2, _, _, c5⟩ := allocEvents_shared_counts n 0 (n + n)
  obtain ⟨d1, d2, _, _, d5⟩ := copyEvents_counts (n + n + n) 1 n 0
  have t1 := timed_counts (allocEvents ownedBlock n 0 0)
  have t2 := timed_counts (allocEvents ownedBlock n 0 n)
  have t3 := timed_counts (allocEvents sharedBlock n 0 (n + n))
  have t4 := timed_counts (copyEvents (n + n + n) 1 n 0)
  refine ⟨?_, ?_, ?_⟩
  · simp only [mainTrace, constructions_append, List.cons_append, t1.1, t2.1, t3.1, a1, b1, c1]
    have : ∀ t, constructions (Event.construct (n + n + n) :: t) = constructions t + 1 := by
      intro t; simp [constructions]
    rw [this, constructions_append, t4.1, d1]
    simp [constructions]
    omega
  · simp only [mainTrace, destructions_append, List.cons_append, t1.2.1, t2.2.1, t3.2.1,
      a2, b2, c2]
    have : ∀ t, destructions (Event.construct (n + n + n) :: t) = destructions t := by
      intro t; simp [destructions]
    rw [this, destructions_append, t4.2.1, d2]
    simp [destructions]
    omega
  · simp only [mainTrace, stores_append, List.cons_append, t1.2.2.2.2, t2.2.2.2.2,
      t3.2.2.2.2, a5, b5, c5, List.length_append, narrowedFrom_length]
    have : ∀ t, stores (Event.construct (n + n + n) :: t) = stores t := by
      intro t; simp [stores]
    rw [this, stores_append, t4.2.2.2.2, d5]
    simp [stores, narrowedFrom_length]
    omega

theorem mem_copyEvents (b n : Nat) (e : Event) (k : Nat) : ∀ (i : Int),
    e ∈ copyEvents b n k i →
      e = Event.retain b (n + 1) ∨ (∃ v, e = Event.store b v) ∨ e = Event.release b n := by
  induction k with
  | zero => intro i h; simp [copyEvents] at h
  | succ k ih =>
    intro i h
    simp only [copyEvents, copyBlock, List.mem_append, List.mem_cons, List.mem_singleton,
      List.not_mem_nil, or_false] at h
    rcases h with (h | h | h) | h
    · exact Or.inl h
    · exact Or.inr (Or.inl ⟨_, h⟩)
    · exact Or.inr (Or.inr h)
    · exact ih (i + 1) h

theorem copyEvents_length (b n : Nat) (k : Nat) : ∀ (i : Int),
    (copyEvents b n k i).length = 3 * k := by
  induction k with
  | zero => intro i; simp [copyEvents]
  | succ k ih => intro i; simp [copyEvents, copyBlock, ih (i + 1)]; omega

theorem lookup_of_useCount (b n : Nat) (s : State) (h : useCount b s = some n) :
    ∃ o, lookup b s.heap = some { obj := o, uses := some n } := by
  unfold useCount at h
  cases hl : lookup b s.heap with
  | none => simp [hl] at h
  | some c =>
    obtain ⟨o, u⟩ := c
    simp [hl] at h
    exact ⟨o, by simp [h]⟩

theorem toInt32_of_small (i : Int) (h0 : -2 ^ 31 ≤ i) (h1 : i < 2 ^ 31) : toInt32 i = i := by
  unfold toInt32
  omega

theorem dataAfter_eq (N d : Int) :
    dataAfter N d = if 0 < N then toInt32 (N - 1) else d := by
  unfold dataAfter
  by_cases h : 0 < N
  · have : N.toNat ≠ 0 := by omega
    simp [h, this]
  · have : N.toNat = 0 := by omega
    simp [h, this]

/-! ## Live objects along a trace -/

theorem liveBounded_append (d e : List Event) (hd : LiveBounded d)
    (hbal : constructions d = destructions d) (he : LiveBounded e) :
    LiveBounded (d ++ e) := by
  intro p hp
  rcases List.prefix_or_prefix_of_prefix hp (List.prefix_append d e) with h | h
  · exact hd p h
  · obtain ⟨q, rfl⟩ := h
    have hq : q <+: e := (List.prefix_append_right_inj d).1 hp
    have := he q hq
    rw [constructions_append, destructions_append]
    omega

theorem liveBounded_nil : LiveBounded [] := by
  intro p hp
  have : p = [] := List.prefix_nil.1 hp
  subst this
  simp [constructions, destructions]

theorem liveBounded_clock : LiveBounded [Event.clock] := by
  intro p hp
  obtain ⟨t, ht⟩ := hp
  rcases p with _ | ⟨e1, _ | ⟨e2, p⟩⟩ <;>
    simp_all [constructions, destructions]

theorem liveBounded_ownedBlock (a : Nat) (i : Int) : LiveBounded (ownedBlock a i) := by
  intro p hp
  obtain ⟨t, ht⟩ := hp
  rcases p with _ | ⟨e1, _ | ⟨e2, _ | ⟨e3, _ | ⟨e4, p⟩⟩⟩⟩ <;>
    simp_all [ownedBlock, constructions, destructions]

theorem liveBounded_sharedBlock (a : Nat) (i : Int) : LiveBounded (sharedBlock a i) := by
  intro p hp
  obtain ⟨t, ht⟩ := hp
  rcases p with _ | ⟨e1, _ | ⟨e2, _ | ⟨e3, _ | ⟨e4, _ | ⟨e5, p⟩⟩⟩⟩⟩ <;>
    simp_all [sharedBlock, constructions, destructions]

theorem liveBounded_allocEvents (block : Nat → Int → List Event)
    (hb : ∀ a i, LiveBounded (block a i))
    (hbal : ∀ a i, constructions (block a i) = destructions (block a i)) (k : Nat) :
    ∀ (i : Int) (a : Nat), LiveBounded (allocEvents block k i a) := by
  induction k with
  | zero => intro i a; exact liveBounded_nil
  | succ k ih =>
    intro i a
    exact liveBounded_append _ _ (hb a i) (hbal a i) (ih (i + 1) (a + 1))

theorem liveBounded_timed (loop : List Event) (h : LiveBounded loop)
    (hbal : constructions loop = destructions loop) : LiveBounded (timed loop) := by
  have h1 : LiveBounded (loop ++ [Event.clock]) :=
    liveBounded_append _ _ h hbal liveBounded_clock
  have h2 := liveBounded_append [Event.clock] _ liveBounded_clock
    (by simp [constructions, destructions]) h1
  simpa [timed] using h2

theorem foldlM_alloc (body : Int → State → Option State) (block : Nat → Int → List Event)
    (hb : ∀ i s, body i s =
      some { s with next := s.next + 1, trace := s.trace ++ block s.next i })
    (j : Nat) (s : State) :
    List.foldlM (fun s (i : Nat) => body i s) s (List.range j) =
      some { s with
        next := s.next + j
        trace := s.trace ++ allocEvents block j 0 s.next } := by
  have h1 := forLoop_eq_foldlM j body j 0 s (by simp)
  have h2 := forLoop_alloc j body block hb j 0 s (by simp)
  rw [← h2, h1]
  simp

/-! ## Lines of the output -/

theorem linesOf_append_newline (l r : List Char) (h : '\n' ∉ l) :
    linesOf (l ++ '\n' :: r) = l :: linesOf r := by
  induction l with
  | nil => simp [linesOf]
  | cons c l ih =>
    have hc : c ≠ '\n' := by
      intro hc; apply h; simp [hc]
    have hl : '\n' ∉ l := by
      intro hl; apply h; simp [hl]
    simp [linesOf, hc, ih hl]

theorem digitChar_ne_newline (m : Nat) (h : m < 10) : Nat.digitChar m ≠ '\n' := by
  interval_cases m <;> decide

theorem toDigitsCore_no_newline : ∀ (fuel n : Nat) (ds : List Char),
    '\n' ∉ ds → '\n' ∉ Nat.toDigitsCore 10 fuel n ds := by
  intro fuel
  induction fuel with
  | zero => intro n ds h; simpa [Nat.toDigitsCore] using h
  | succ fuel ih =>
    intro n ds h
    have hd : '\n' ∉ Nat.digitChar (n % 10) :: ds := by
      intro hm
      rcases List.mem_cons.1 hm with h' | h'
      · exact digitChar_ne_newline _ (Nat.mod_lt _ (by decide)) h'.symm
      · exact h h'
    simp only [Nat.toDigitsCore]
    split_ifs
    · exact hd
    · exact ih _ _ hd

theorem nat_toString_no_newline (n : Nat) : '\n' ∉ (toString n).toList := by
  show '\n' ∉ (Nat.repr n).toList
  simp only [Nat.repr, Nat.toDigits, List.asString, String.toList]
  exact toDigitsCore_no_newline _ _ _ (by simp)

theorem int_toString_no_newline (n : Int) : '\n' ∉ (toString n).toList := by
  cases n with
  | ofNat m => exact nat_toString_no_newline m
  | negSucc m =>
    show '\n' ∉ ("-" ++ toString (m + 1)).toList
    have := nat_toString_no_newline (m + 1)
    simp only [String.toList, String.data_append] at this ⊢
    intro h
    rcases List.mem_append.1 h with h' | h'
    · revert h'; decide
    · exact this h'

theorem header_no_newline (N : Int) :
    '\n' ∉ ("Benchmarking Smart Pointer Overhead (Iterations: " ++ toString N ++ ")").toList := by
  have hN := int_toString_no_newline N
  simp only [String.toList, String.data_append] at hN ⊢
  intro h
  rcases List.mem_append.1 h with h' | h'
  · rcases List.mem_append.1 h' with h'' | h''
    · revert h''; decide
    · exact hN h''
  · revert h'; decide

theorem total_no_newline (fmt : Int → String) (hfmt : ∀ t, '\n' ∉ (fmt t).toList)
    (e : Int) : '\n' ∉ ("   Total time: " ++ fmt e ++ " seconds").toList := by
  have hN := hfmt e
  simp only [String.toList, String.data_append] at hN ⊢
  intro h
  rcases List.mem_append.1 h with h' | h'
  · rcases List.mem_append.1 h' with h'' | h''
    · revert h''; decide
    · exact hN h''
  · revert h'; decide

theorem total_isTotalTimeLine (fmt : Int → String) (e : Int) :
    isTotalTimeLine ("   Total time: " ++ fmt e ++ " seconds") = true := by
  unfold isTotalTimeLine
  rw [List.isPrefixOf_iff_prefix]
  exact ⟨(fmt e).toList ++ " seconds".toList, by
    simp only [String.toList, String.data_append, List.append_assoc]⟩

theorem header_not_totalTimeLine (N : Int) :
    isTotalTimeLine
      ("Benchmarking Smart Pointer Overhead (Iterations: " ++ toString N ++ ")") = false := by
  unfold isTotalTimeLine
  simp only [String.toList, String.data_append, List.append_assoc]
  rfl

theorem mainOutput_lines (N : Int) (clock : Nat → Int) (fmt : Int → String)
    (hfmt : ∀ t, '\n' ∉ (fmt t).toList) :
    outputLines (mainOutput N clock fmt) = expectedLines N clock fmt := by
  have key : (mainOutput N clock fmt).toList =
      ("Benchmarking Smart Pointer Overhead (Iterations: " ++ toString N ++ ")").toList ++
      '\n' :: ([] ++ '\n' :: ("1. Raw Pointers (new/delete)...".toList ++
      '\n' :: (("   Total time: " ++ fmt (clock 1 - clock 0) ++ " seconds").toList ++
      '\n' :: ([] ++ '\n' :: ("2. std::unique_ptr...".toList ++
      '\n' :: (("   Total time: " ++ fmt (clock 3 - clock 2) ++ " seconds").toList ++
      '\n' :: ([] ++ '\n' :: ("3. std::shared_ptr (Creation/Destruction)...".toList ++
      '\n' :: (("   Total time: " ++ fmt (clock 5 - clock 4) ++ " seconds").toList ++
      '\n' :: ([] ++ '\n' :: ("4. std::shared_ptr (Copying Overhead)...".toList ++
      '\n' :: (("   Total time: " ++ fmt (clock 7 - clock 6) ++ " seconds").toList ++
      '\n' :: [])))))))))))) := by
    simp only [mainOutput, totalLine, String.toList, String.data_append, List.append_assoc,
      List.nil_append]
    rfl
  unfold outputLines
  rw [key]
  rw [linesOf_append_newline _ _ (header_no_newline N),
    linesOf_append_newline _ _ (List.not_mem_nil _),
    linesOf_append_newline _ _ (by decide),
    linesOf_append_newline _ _ (total_no_newline fmt hfmt _),
    linesOf_append_newline _ _ (List.not_mem_nil _),
    linesOf_append_newline _ _ (by decide),
    linesOf_append_newline _ _ (total_no_newline fmt hfmt _),
    linesOf_append_newline _ _ (List.not_mem_nil _),
    linesOf_append_newline _ _ (by decide),
    linesOf_append_newline _ _ (total_no_newline fmt hfmt _),
    linesOf_append_newline _ _ (List.not_mem_nil _),
    linesOf_append_newline _ _ (by decide),
    linesOf_append_newline _ _ (total_no_newline fmt hfmt _)]
  rfl

theorem expectedLines_totals (N : Int) (clock : Nat → Int) (fmt : Int → String) :
    (expectedLines N clock fmt).countP isTotalTimeLine = 4 := by
  have hd : ∀ l : String, isTotalTimeLine l = false → ¬ (isTotalTimeLine l = true) := by
    intro l h; simp [h]
  have e0 : isTotalTimeLine "" = false := by decide
  have e1 : isTotalTimeLine "1. Raw Pointers (new/delete)..." = false := by decide
  have e2 : isTotalTimeLine "2. std::unique_ptr..." = false := by decide
  have e3 : isTotalTimeLine "3. std::shared_ptr (Creation/Destruction)..." = false := by
    decide
  have e4 : isTotalTimeLine "4. std::shared_ptr (Copying Overhead)..." = false := by decide
  simp only [expectedLines, List.countP_cons, List.countP_nil, total_isTotalTimeLine,
    header_not_totalTimeLine, e0, e1, e2, e3, e4, if_true, if_false, Bool.false_eq_true]

/-! ## The claims -/

/-- C1: every loop of `main` runs its body for the counters `0, 1, ..., N - 1`
and for no other, so exactly `N` times: the loop construct does so for any
body, the values stored to `data` in each of the four trials are the `N`
narrowed counters in order, the whole run stores `4 * N` times, and the
declared constant is 100,000,000. -/
theorem iteration_count_identical (N : Int) (clock : Nat → Int) (fmt : Int → String) :
    (∀ (body : Int → State → Option State) (s : State),
      forLoop N body 0 s =
        List.foldlM (fun s (j : Nat) => body j s) s (List.range N.toNat)) ∧
    (∀ s, ∃ s', trial1 N clock fmt s = some s' ∧
      stores (eventsSince s s') = narrowedFrom 0 N.toNat) ∧
    (∀ s, ∃ s', trial2 N clock fmt s = some s' ∧
      stores (eventsSince s s') = narrowedFrom 0 N.toNat) ∧
    (∀ s, ∃ s', trial3 N clock fmt s = some s' ∧
      stores (eventsSince s s') = narrowedFrom 0 N.toNat) ∧
    (∀ s, ∃ s' b, trial4 N clock fmt s = some (s', b) ∧
      stores (eventsSince s s') = narrowedFrom 0 N.toNat) ∧
    (narrowedFrom 0 N.toNat).length = N.toNat ∧
    (∃ s, main N clock fmt = some (s, 0) ∧ (stores s.trace).length = 4 * N.toNat) ∧
    ITERATIONS.toNat = 100000000 := by
  refine ⟨?_, ?_, ?_, ?_, ?_, narrowedFrom_length _ _, ?_, by decide⟩
  · intro body s
    have h := forLoop_eq_foldlM N body N.toNat 0 s (by simp)
    simpa using h
  · intro s
    refine ⟨_, trial1_eq N clock fmt s, ?_⟩
    rw [eventsSince_append _ _ _ rfl, (timed_counts _).2.2.2.2,
      (allocEvents_owned_counts _ _ _).2.2.2.2]
  · intro s
    refine ⟨_, trial2_eq N clock fmt s, ?_⟩
    rw [eventsSince_append _ _ _ rfl, (timed_counts _).2.2.2.2,
      (allocEvents_owned_counts _ _ _).2.2.2.2]
  · intro s
    refine ⟨_, trial3_eq N clock fmt s, ?_⟩
    rw [eventsSince_append _ _ _ rfl, (timed_counts _).2.2.2.2,
      (allocEvents_shared_counts _ _ _).2.2.2.2]
  · intro s
    refine ⟨_, _, trial4_eq N clock fmt s, ?_⟩
    rw [eventsSince_append _ _ _ rfl]
    have : ∀ t, stores (Event.construct s.next :: t) = stores t := by
      intro t; simp [stores]
    rw [this, (timed_counts _).2.2.2.2, (copyEvents_counts _ _ _ _).2.2.2.2]
  · exact ⟨_, main_eq N clock fmt, (mainTrace_counts N.toNat).2.2⟩

/-- C2: trials 1, 2 and 3 each call the `MyObject` constructor exactly `N`
times, trial 4 calls it exactly once, and the whole run calls it `3 * N + 1`
times. -/
theorem construction_counts (N : Int) (clock : Nat → Int) (fmt : Int → String) :
    (∀ s, ∃ s', trial1 N clock fmt s = some s' ∧
      constructions (eventsSince s s') = N.toNat) ∧
    (∀ s, ∃ s', trial2 N clock fmt s = some s' ∧
      constructions (eventsSince s s') = N.toNat) ∧
    (∀ s, ∃ s', trial3 N clock fmt s = some s' ∧
      constructions (eventsSince s s') = N.toNat) ∧
    (∀ s, ∃ s' b, trial4 N clock fmt s = some (s', b) ∧
      constructions (eventsSince s s') = 1) ∧
    (∃ s, main N clock fmt = some (s, 0) ∧ constructions s.trace = 3 * N.toNat + 1) := by
  refine ⟨?_, ?_, ?_, ?_, ?_⟩
  · intro s
    refine ⟨_, trial1_eq N clock fmt s, ?_⟩
    rw [eventsSince_append _ _ _ rfl, (timed_counts _).1, (allocEvents_owned_counts _ _ _).1]
  · intro s
    refine ⟨_, trial2_eq N clock fmt s, ?_⟩
    rw [eventsSince_append _ _ _ rfl, (timed_counts _).1, (allocEvents_owned_counts _ _ _).1]
  · intro s
    refine ⟨_, trial3_eq N clock fmt s, ?_⟩
    rw [eventsSince_append _ _ _ rfl, (timed_counts _).1, (allocEvents_shared_counts _ _ _).1]
  · intro s
    refine ⟨_, _, trial4_eq N clock fmt s, ?_⟩
    rw [eventsSince_append _ _ _ rfl]
    have : ∀ t, constructions (Event.construct s.next :: t) = constructions t + 1 := by
      intro t; simp [constructions]
    rw [this, (timed_counts _).1, (copyEvents_counts _ _ _ _).1]
  · exact ⟨_, main_eq N clock fmt, (mainTrace_counts N.toNat).1⟩

/-- C3: in trial 4 the use count of the shared object is 1 before the loop;
in any iteration entered with use count 1 it is 2 after the copy and after the
store, and 1 again after `copy_ptr` is destroyed, with no destructor call; over
the whole trial every increment goes to 2 and every decrement to 1 (never 0),
no object is destroyed, and afterwards `base_shared_ptr` still owns the live
object it was created with, with use count 1. -/
theorem shared_copy_use_count (N : Int) (clock : Nat → Int) (fmt : Int → String)
    (s : State) :
    (trial4Setup s).2 = s.next ∧
    useCount s.next (trial4Setup s).1 = some 1 ∧
    (∀ (b : Nat) (i : Int) (s0 : State), useCount b s0 = some 1 →
      ∃ s1 s2 s3, copyShared b s0 = some s1 ∧ useCount b s1 = some 2 ∧
        storeData b i s1 = some s2 ∧ useCount b s2 = some 2 ∧
        dropShared b s2 = some s3 ∧ useCount b s3 = some 1 ∧
        sharedCopyBody b i s0 = some s3 ∧ destructions (eventsSince s0 s3) = 0) ∧
    (∃ s4, trial4 N clock fmt s = some (s4, s.next) ∧
      eventsSince s s4 =
        Event.construct s.next :: timed (copyEvents s.next 1 N.toNat 0) ∧
      (∀ a n, Event.retain a n ∈ eventsSince s s4 → a = s.next ∧ n = 2) ∧
      (∀ a n, Event.release a n ∈ eventsSince s s4 → a = s.next ∧ n = 1) ∧
      destructions (eventsSince s s4) = 0 ∧
      useCount s.next s4 = some 1) := by
  refine ⟨rfl, by simp [useCount, trial4Setup, makeShared, print, lookup], ?_, ?_⟩
  · intro b i s0 h
    obtain ⟨o, ho⟩ := lookup_of_useCount b 1 s0 h
    have h1 := lookup_update_same b { obj := o, uses := some 2 } s0.heap _ ho
    have h2 := lookup_update_same b { obj := { data := toInt32 i }, uses := some 2 }
      s0.heap _ ho
    have h3 := lookup_update_same b { obj := { data := toInt32 i }, uses := some 1 }
      s0.heap _ ho
    refine ⟨{ s0 with
        heap := update b { obj := o, uses := some 2 } s0.heap
        trace := s0.trace ++ [Event.retain b 2] },
      { s0 with
        heap := update b { obj := { data := toInt32 i }, uses := some 2 } s0.heap
        trace := s0.trace ++ [Event.retain b 2, Event.store b (toInt32 i)] },
      { s0 with
        heap := update b { obj := { data := toInt32 i }, uses := some 1 } s0.heap
        trace := s0.trace ++ copyBlock b 1 i },
      copyShared_eq b 1 o s0 (by decide) ho, ?_, ?_, ?_, ?_, ?_, ?_, ?_⟩
    · simp [useCount, h1]
    · simp [storeData, h1, update_update_same]
    · simp [useCount, h2]
    · simp [dropShared, h2, update_update_same, copyBlock]
    · simp [useCount, h3]
    · exact sharedCopyBody_eq b 1 o i s0 (by decide) ho
    · rw [eventsSince_append _ _ _ rfl]
      simp [copyBlock, destructions]
  · refine ⟨_, trial4_eq N clock fmt s, ?_⟩
    rw [eventsSince_append _ _ _ rfl]
    refine ⟨rfl, ?_, ?_, ?_, by simp [useCount, lookup]⟩
    · intro a n h
      simp only [timed, List.mem_cons, List.mem_append, List.mem_singleton, reduceCtorEq,
        false_or, or_false, List.not_mem_nil] at h
      rcases mem_copyEvents _ _ _ _ _ h with h' | ⟨v, h'⟩ | h' <;> simp_all
    · intro a n h
      simp only [timed, List.mem_cons, List.mem_append, List.mem_singleton, reduceCtorEq,
        false_or, or_false, List.not_mem_nil] at h
      rcases mem_copyEvents _ _ _ _ _ h with h' | ⟨v, h'⟩ | h' <;> simp_all
    · have : ∀ t, destructions (Event.construct s.next :: t) = destructions t := by
        intro t; simp [destructions]
      rw [this, (timed_counts _).2.1, (copyEvents_counts _ _ _ _).2.1]

/-- C4, refuted as stated: from the initial state the `data` field of the
shared object is 0 before the copy loop, and after trial 4 it is 1 for
`N = 2` and 99,999,999 for `N = ITERATIONS`. -/
theorem pointee_changed_by_copy_loop :
    dataOf (trial4Setup State.init).2 (trial4Setup State.init).1 = some 0 ∧
    (trial4 2 (fun k => k) (fun _ => "") State.init).bind (fun r => dataOf r.2 r.1)
      = some 1 ∧
    (trial4 ITERATIONS (fun k => k) (fun _ => "") State.init).bind
      (fun r => dataOf r.2 r.1) = some 99999999 := by
  refine ⟨by simp [dataOf, trial4Setup, makeShared, print, lookup, State.init], ?_, ?_⟩
  · rw [trial4_eq]
    simp [dataOf, lookup, dataAfter_eq, toInt32]
  · rw [trial4_eq]
    simp [dataOf, lookup, dataAfter_eq, toInt32, ITERATIONS]

/-- C4, amended: after trial 4 `base_shared_ptr` still owns the live object it
was created with, with use count 1; the object's `data` field, 0 before the
loop, holds the last counter `N - 1` narrowed to `int` when `N > 0` and is
still 0 when `N <= 0`, so it keeps its value exactly when `N <= 0` or `N - 1`
narrows to 0; for `N = ITERATIONS` it holds 99,999,999. -/
theorem pointee_after_copy_loop (N : Int) (clock : Nat → Int) (fmt : Int → String)
    (s : State) :
    dataOf s.next (trial4Setup s).1 = some 0 ∧
    (∃ s4, trial4 N clock fmt s = some (s4, s.next) ∧
      useCount s.next s4 = some 1 ∧
      dataOf s.next s4 = some (if 0 < N then toInt32 (N - 1) else 0) ∧
      (dataOf s.next s4 = dataOf s.next (trial4Setup s).1 ↔
        (N ≤ 0 ∨ toInt32 (N - 1) = 0))) ∧
    (∃ s4, trial4 ITERATIONS clock fmt s = some (s4, s.next) ∧
      dataOf s.next s4 = some 99999999) := by
  have h0 : dataOf s.next (trial4Setup s).1 = some 0 := by
    simp [dataOf, trial4Setup, makeShared, print, lookup]
  refine ⟨h0, ⟨_, trial4_eq N clock fmt s, by simp [useCount, lookup], ?_, ?_⟩,
    ⟨_, trial4_eq ITERATIONS clock fmt s, ?_⟩⟩
  · simp [dataOf, lookup, dataAfter_eq]
  · rw [h0]
    simp only [dataOf, lookup, if_true, Option.map_some', dataAfter_eq, Option.some.injEq]
    by_cases h : 0 < N
    · simp only [h, if_true]
      constructor
      · intro h'; exact Or.inr h'
      · intro h'
        rcases h' with h' | h'
        · omega
        · exact h'
    · simp only [h, if_false, true_iff]
      left; omega
  · simp [dataOf, lookup, dataAfter_eq, toInt32, ITERATIONS]

/-- C6: for every iteration count, `main` returns, with exit status 0 and
every object freed; it has no other result; and each of the four loops
returns from any state in which the object it copies, if any, is alive and
shared. -/
theorem main_exits_zero (N : Int) (clock : Nat → Int) (fmt : Int → String) :
    (∃ s, main N clock fmt = some (s, 0) ∧ live s = 0) ∧
    (∀ r, main N clock fmt = some r → r.2 = 0) ∧
    (∀ s, ∃ s', forLoop N rawBody 0 s = some s') ∧
    (∀ s, ∃ s', forLoop N uniqueBody 0 s = some s') ∧
    (∀ s, ∃ s', forLoop N sharedCreateBody 0 s = some s') ∧
    (∀ s n b, 0 < n → useCount b s = some n → ∃ s', copyLoop N b s = some s') := by
  refine ⟨⟨_, main_eq N clock fmt, by simp [live]⟩, ?_, ?_, ?_, ?_, ?_⟩
  · intro r hr
    rw [main_eq] at hr
    cases hr
    rfl
  · intro s
    exact ⟨_, forLoop_alloc N rawBody ownedBlock rawBody_eq N.toNat 0 s (by simp)⟩
  · intro s
    exact ⟨_, forLoop_alloc N uniqueBody ownedBlock uniqueBody_eq N.toNat 0 s (by simp)⟩
  · intro s
    exact ⟨_, forLoop_alloc N sharedCreateBody sharedBlock sharedCreateBody_eq N.toNat 0 s
      (by simp)⟩
  · intro s n b hn hu
    obtain ⟨o, ho⟩ := lookup_of_useCount b n s hu
    exact ⟨_, copyLoop_eq N b n o s hn ho⟩

/-- C8: in trial 4 the base object is constructed before the first clock
reading; between the two clock readings there is no constructor call and no
destructor call, only `N` use-count increments, `N` stores and `N` use-count
decrements, all on the base object. -/
theorem copy_trial_timed_region (N : Int) (clock : Nat → Int) (fmt : Int → String)
    (s : State) :
    (trial4Setup s).1.trace = s.trace ++ [Event.construct s.next] ∧
    ∃ s4, trial4 N clock fmt s = some (s4, s.next) ∧
      eventsSince s s4 =
        Event.construct s.next :: Event.clock ::
          (copyEvents s.next 1 N.toNat 0 ++ [Event.clock]) ∧
      Event.clock ∉ copyEvents s.next 1 N.toNat 0 ∧
      constructions (copyEvents s.next 1 N.toNat 0) = 0 ∧
      destructions (copyEvents s.next 1 N.toNat 0) = 0 ∧
      retains (copyEvents s.next 1 N.toNat 0) = N.toNat ∧
      releases (copyEvents s.next 1 N.toNat 0) = N.toNat ∧
      (copyEvents s.next 1 N.toNat 0).length = 3 * N.toNat ∧
      ∀ e ∈ copyEvents s.next 1 N.toNat 0,
        e = Event.retain s.next 2 ∨ (∃ v, e = Event.store s.next v) ∨
          e = Event.release s.next 1 := by
  obtain ⟨c1, c2, c3, c4, _⟩ := copyEvents_counts s.next 1 N.toNat 0
  refine ⟨by simp [trial4Setup, makeShared, print], _, trial4_eq N clock fmt s, ?_, ?_,
    c1, c2, c3, c4, copyEvents_length _ _ _ _, ?_⟩
  · rw [eventsSince_append _ _ _ rfl]
    rfl
  · intro h
    rcases mem_copyEvents _ _ _ _ _ h with h' | ⟨v, h'⟩ | h' <;> cases h'
  · intro e he
    exact mem_copyEvents _ _ _ _ _ he

/-- C10: for every loop counter `i` with `0 <= i < ITERATIONS`, `i` is at most
`2^31 - 1`, narrowing `i` to `int` gives `i`, and the store `data = i` on a
live object leaves `i` in its `data` field. -/
theorem narrowing_is_lossless (i : Int) (h0 : 0 ≤ i) (h1 : i < ITERATIONS) :
    i ≤ 2 ^ 31 - 1 ∧ toInt32 i = i ∧
    ∀ (a : Nat) (s : State) (c : Cell), lookup a s.heap = some c →
      ∃ s', storeData a i s = some s' ∧ dataOf a s' = some i ∧
        eventsSince s s' = [Event.store a i] := by
  have hI : i < 100000000 := h1
  have hn : toInt32 i = i := toInt32_of_small i (by omega) (by omega)
  refine ⟨by omega, hn, ?_⟩
  intro a s c hc
  refine ⟨{ s with
    heap := update a { c with obj := { data := toInt32 i } } s.heap
    trace := s.trace ++ [Event.store a (toInt32 i)] }, by simp [storeData, hc], ?_, ?_⟩
  · simp [dataOf, lookup_update_same a _ s.heap c hc, hn]
  · rw [eventsSince_append _ _ _ rfl, hn]

/-- Witness for C10 at the last counter of the real run, 99,999,999. -/
theorem narrowing_is_lossless_witness :
    (0 : Int) ≤ 99999999 ∧ (99999999 : Int) < ITERATIONS ∧
    ((99999999 : Int) ≤ 2 ^ 31 - 1 ∧ toInt32 99999999 = 99999999 ∧
    ∀ (a : Nat) (s : State) (c : Cell), lookup a s.heap = some c →
      ∃ s', storeData a 99999999 s = some s' ∧ dataOf a s' = some 99999999 ∧
        eventsSince s s' = [Event.store a 99999999]) :=
  ⟨by decide, by decide, narrowing_is_lossless 99999999 (by decide) (by decide)⟩

/-- C9: in trials 1, 2 and 3 an iteration allocates one object and releases it
before it ends (the shared one when its use count drops from 1 to 0), so after
any number of iterations as many objects are alive as at loop entry; each of
these trials leaves the heap as it found it, calls the constructor `N` times
and the destructor `N` times, and at every point of it at most one object
constructed in the trial is not yet destroyed; in `main` no object is alive
when each of these trials starts and ends. -/
theorem owned_trials_release_each_iteration (N : Int) (clock : Nat → Int)
    (fmt : Int → String) :
    (∀ (i : Int) (s : State), live (newObject s).1 = live s + 1 ∧
      ∃ s', rawBody i s = some s' ∧ s'.heap = s.heap ∧
        eventsSince s s' =
          [Event.construct s.next, Event.store s.next (toInt32 i), Event.destroy s.next]) ∧
    (∀ (i : Int) (s : State), live (makeUnique s).1 = live s + 1 ∧
      ∃ s', uniqueBody i s = some s' ∧ s'.heap = s.heap ∧
        eventsSince s s' =
          [Event.construct s.next, Event.store s.next (toInt32 i), Event.destroy s.next]) ∧
    (∀ (i : Int) (s : State), live (makeShared s).1 = live s + 1 ∧
      useCount s.next (makeShared s).1 = some 1 ∧
      ∃ s', sharedCreateBody i s = some s' ∧ s'.heap = s.heap ∧
        eventsSince s s' =
          [Event.construct s.next, Event.store s.next (toInt32 i),
            Event.release s.next 0, Event.destroy s.next]) ∧
    (∀ (j : Nat) (s : State),
      (∃ s', List.foldlM (fun s (i : Nat) => rawBody i s) s (List.range j) = some s' ∧
        live s' = live s) ∧
      (∃ s', List.foldlM (fun s (i : Nat) => uniqueBody i s) s (List.range j) = some s' ∧
        live s' = live s) ∧
      (∃ s', List.foldlM (fun s (i : Nat) => sharedCreateBody i s) s (List.range j)
          = some s' ∧ live s' = live s)) ∧
    (∀ s, ∃ s', trial1 N clock fmt s = some s' ∧ s'.heap = s.heap ∧
      constructions (eventsSince s s') = N.toNat ∧
      destructions (eventsSince s s') = N.toNat ∧
      ∀ p, p <+: eventsSince s s' →
        destructions p ≤ constructions p ∧ constructions p ≤ destructions p + 1) ∧
    (∀ s, ∃ s', trial2 N clock fmt s = some s' ∧ s'.heap = s.heap ∧
      constructions (eventsSince s s') = N.toNat ∧
      destructions (eventsSince s s') = N.toNat ∧
      ∀ p, p <+: eventsSince s s' →
        destructions p ≤ constructions p ∧ constructions p ≤ destructions p + 1) ∧
    (∀ s, ∃ s', trial3 N clock fmt s = some s' ∧ s'.heap = s.heap ∧
      constructions (eventsSince s s') = N.toNat ∧
      destructions (eventsSince s s') = N.toNat ∧
      ∀ p, p <+: eventsSince s s' →
        destructions p ≤ constructions p ∧ constructions p ≤ destructions p + 1) ∧
    (∃ s0 s1 s2 s3 r,
      s0 = print ("Benchmarking Smart Pointer Overhead (Iterations: " ++ toString N ++ ")\n")
        State.init ∧
      trial1 N clock fmt s0 = some s1 ∧ trial2 N clock fmt s1 = some s2 ∧
      trial3 N clock fmt s2 = some s3 ∧ (trial4 N clock fmt s3).bind
        (fun q => (dropShared q.2 q.1).map fun s => (s, (0 : Int))) = some r ∧
      main N clock fmt = some r ∧
      live s0 = 0 ∧ live s1 = 0 ∧ live s2 = 0 ∧ live s3 = 0) := by
  have ho := allocEvents_owned_counts
  have hs := allocEvents_shared_counts
  have hbo : ∀ a i, constructions (ownedBlock a i) = destructions (ownedBlock a i) := by
    intro a i; simp [ownedBlock, constructions, destructions]
  have hbs : ∀ a i, constructions (sharedBlock a i) = destructions (sharedBlock a i) := by
    intro a i; simp [sharedBlock, constructions, destructions]
  refine ⟨?_, ?_, ?_, ?_, ?_, ?_, ?_, ?_⟩
  · intro i s
    refine ⟨by simp [live, newObject], _, rawBody_eq i s, rfl, ?_⟩
    rw [eventsSince_append _ _ _ rfl]; rfl
  · intro i s
    refine ⟨by simp [live, makeUnique, newObject], _, uniqueBody_eq i s, rfl, ?_⟩
    rw [eventsSince_append _ _ _ rfl]; rfl
  · intro i s
    refine ⟨by simp [live, makeShared], by simp [useCount, makeShared, lookup], _,
      sharedCreateBody_eq i s, rfl, ?_⟩
    rw [eventsSince_append _ _ _ rfl]; rfl
  · intro j s
    exact ⟨⟨_, foldlM_alloc rawBody ownedBlock rawBody_eq j s, rfl⟩,
      ⟨_, foldlM_alloc uniqueBody ownedBlock uniqueBody_eq j s, rfl⟩,
      ⟨_, foldlM_alloc sharedCreateBody sharedBlock sharedCreateBody_eq j s, rfl⟩⟩
  · intro s
    refine ⟨_, trial1_eq N clock fmt s, rfl, ?_⟩
    rw [eventsSince_append _ _ _ rfl, (timed_counts _).1, (timed_counts _).2.1,
      (ho _ _ _).1, (ho _ _ _).2.1]
    refine ⟨rfl, rfl, ?_⟩
    exact liveBounded_timed _
      (liveBounded_allocEvents ownedBlock liveBounded_ownedBlock hbo _ _ _)
      (by rw [(ho _ _ _).1, (ho _ _ _).2.1])
  · intro s
    refine ⟨_, trial2_eq N clock fmt s, rfl, ?_⟩
    rw [eventsSince_append _ _ _ rfl, (timed_counts _).1, (timed_counts _).2.1,
      (ho _ _ _).1, (ho _ _ _).2.1]
    refine ⟨rfl, rfl, ?_⟩
    exact liveBounded_timed _
      (liveBounded_allocEvents ownedBlock liveBounded_ownedBlock hbo _ _ _)
      (by rw [(ho _ _ _).1, (ho _ _ _).2.1])
  · intro s
    refine ⟨_, trial3_eq N clock fmt s, rfl, ?_⟩
    rw [eventsSince_append _ _ _ rfl, (timed_counts _).1, (timed_counts _).2.1,
      (hs _ _ _).1, (hs _ _ _).2.1]
    refine ⟨rfl, rfl, ?_⟩
    exact liveBounded_timed _
      (liveBounded_allocEvents sharedBlock liveBounded_sharedBlock hbs _ _ _)
      (by rw [(hs _ _ _).1, (hs _ _ _).2.1])
  · refine ⟨_, _, _, _, _, rfl, trial1_eq N clock fmt _, trial2_eq N clock fmt _,
      trial3_eq N clock fmt _, ?_, main_eq N clock fmt, ?_, ?_, ?_, ?_⟩
    · rw [trial4_eq]
      simp only [Option.bind]
      rw [dropShared_last _ { data := dataAfter N 0 } _ (by simp [lookup])]
      simp [remove, mainTrace, mainOutput, String.append_assoc, print, State.init]
    all_goals simp [live, print, State.init]

/-- C5: when the rendering of an elapsed time contains no newline, the text
`main` writes to standard output consists of exactly these lines, in this
order: the header line with the iteration count and then, for trials 1, 2, 3
and 4, an empty line, the section header with the trial's number and the line
`   Total time: <seconds> seconds`; there are thirteen lines, exactly four of
them start with `   Total time: `, and the first one is the header line. -/
theorem output_shape (N : Int) (clock : Nat → Int) (fmt : Int → String)
    (hfmt : ∀ t, '\n' ∉ (fmt t).toList) :
    ∃ s, main N clock fmt = some (s, 0) ∧
      outputLines s.out = expectedLines N clock fmt ∧
      (outputLines s.out).length = 13 ∧
      (outputLines s.out).countP isTotalTimeLine = 4 ∧
      (outputLines s.out).head? =
        some ("Benchmarking Smart Pointer Overhead (Iterations: " ++ toString N ++ ")") := by
  refine ⟨_, main_eq N clock fmt, mainOutput_lines N clock fmt hfmt, ?_, ?_, ?_⟩
  · show (outputLines (mainOutput N clock fmt)).length = 13
    rw [mainOutput_lines N clock fmt hfmt]
    rfl
  · show (outputLines (mainOutput N clock fmt)).countP isTotalTimeLine = 4
    rw [mainOutput_lines N clock fmt hfmt]
    exact expectedLines_totals N clock fmt
  · show (outputLines (mainOutput N clock fmt)).head? = _
    rw [mainOutput_lines N clock fmt hfmt]
    rfl

/-- Witness for C5: two iterations per loop, the `k`-th clock reading being
`10 * k` ticks, the elapsed ticks rendered in decimal. -/
theorem output_shape_witness :
    (∀ t : Int, '\n' ∉ ((fun e : Int => toString e) t).toList) ∧
    ∃ s, main 2 (fun k => 10 * k) (fun e => toString e) = some (s, 0) ∧
      outputLines s.out = expectedLines 2 (fun k => 10 * k) (fun e => toString e) ∧
      (outputLines s.out).length = 13 ∧
      (outputLines s.out).countP isTotalTimeLine = 4 ∧
      (outputLines s.out).head? =
        some ("Benchmarking Smart Pointer Overhead (Iterations: " ++ toString (2 : Int) ++ ")") :=
  ⟨fun t => int_toString_no_newline t,
    output_shape 2 (fun k => 10 * k) (fun e => toString e)
      (fun t => int_toString_no_newline t)⟩

/-- Witness for C3: the state reached from the initial state by the setup of
trial 4 has use count 1 for the base object 0, and an iteration from it goes
through use counts 2, 2 and 1. -/
theorem shared_copy_use_count_witness :
    useCount 0 (trial4Setup State.init).1 = some 1 ∧
    ∃ s1 s2 s3, copyShared 0 (trial4Setup State.init).1 = some s1 ∧
      useCount 0 s1 = some 2 ∧
      storeData 0 0 s1 = some s2 ∧ useCount 0 s2 = some 2 ∧
      dropShared 0 s2 = some s3 ∧ useCount 0 s3 = some 1 ∧
      sharedCopyBody 0 0 (trial4Setup State.init).1 = some s3 ∧
      destructions (eventsSince (trial4Setup State.init).1 s3) = 0 :=
  ⟨by decide,
    (shared_copy_use_count 2 (fun k => 10 * k) (fun e => toString e) State.init).2.2.1
      0 0 (trial4Setup State.init).1 (by decide)⟩

/-- Witness for C6: the copy loop with bound 2 returns from the state reached
by the setup of trial 4, where the base object 0 has use count 1. -/
theorem main_exits_zero_witness :
    0 < 1 ∧ useCount 0 (trial4Setup State.init).1 = some 1 ∧
    ∃ s', copyLoop 2 0 (trial4Setup State.init).1 = some s' :=
  ⟨by decide, by decide,
    (main_exits_zero 2 (fun k => 10 * k) (fun e => toString e)).2.2.2.2.2
      (trial4Setup State.init).1 1 0 (by decide) (by decide)⟩

end SmartPointerBenchmark
